import Mathlib

/-!
Verification of the hotdealworker content-acquisition core.

Go strings are modelled as `List Char` (the sources handle ASCII data in the
places the claims touch); Go `time.Duration` values are modelled as `Nat`
nanosecond counts; network and cache effects are passed in explicitly as
oracle arguments, so every function of the source becomes a pure Lean
function of its inputs.
-/

namespace HotDeal

/-- Go strings as lists of characters. -/
abbrev Str := List Char

/-! ## helpers: FetchWithRandomHeaders (src/unnamed/part_026, helpers package)

The direct-fetch helper either yields a UTF-8 body or one of six error
values.  Each constructor mirrors one `fmt.Errorf` site of the function,
carrying the formatted-in data. -/

/-- Errors returned by `FetchWithRandomHeaders`, one constructor per
`fmt.Errorf` call site in src/unnamed/part_026. -/
inductive FetchErr where
  | createFailed (wrapped : Str)
  | fetchFailed (wrapped : Str)
  | rateLimited (retryAfter : Str)
  | unexpectedStatus (url : Str) (code : Nat)
  | readBodyFailed (wrapped : Str)
  | convertFailed (wrapped : Str)
deriving DecidableEq, Repr

/-- Decimal digits of a natural number, as Go's `%d` verb prints them. -/
def natDigits (n : Nat) : Str :=
  (Nat.toDigits 10 n)

/-- The `err.Error()` message of each `FetchWithRandomHeaders` error, exactly
as the corresponding `fmt.Errorf` format string renders it. -/
def errMessage : FetchErr → Str
  | .createFailed w => "failed to create request: ".data ++ w
  | .fetchFailed w => "failed to fetch URL: ".data ++ w
  | .rateLimited ra => "rate limited; retry after ".data ++ ra
  | .unexpectedStatus url code =>
      "fetch ".data ++ url ++ " unexpected status code: ".data ++ natDigits code
  | .readBodyFailed w => "failed to read response body: ".data ++ w
  | .convertFailed w => "failed to read converted UTF-8 body: ".data ++ w

/-- Whether a `FetchWithRandomHeaders` error is the 429/430 rate-limit
rejection. -/
def isRateLimitedErr : FetchErr → Bool
  | .rateLimited _ => true
  | _ => false

/-- The twelve-character tag `fetchWithCache` compares against
(`fmt.Sprintf("%v", err)[:12] == "rate limited"`). -/
def rateLimitedTag : Str := "rate limited".data

/-- One HTTP GET attempt of `FetchWithRandomHeaders`, seen from the function:
either request construction fails, the transport fails, or a response with a
status code arrives whose body read and charset conversion may each fail. -/
inductive HttpOutcome where
  | reqError (msg : Str)
  | transportError (msg : Str)
  | response (status : Nat) (retryAfter : Str) (readErr : Option Str)
      (body : Str) (alreadyUtf8 : Bool) (convErr : Option Str) (converted : Str)
deriving Repr

/-- `FetchWithRandomHeaders` (src/unnamed/part_026 lines 66-131): 429 and 430
yield the rate-limit error with no payload, any other non-200 status yields
the generic status error, and a 200 body is returned after an optional
charset conversion. -/
def fetchWithRandomHeaders (url : Str) (o : HttpOutcome) : Except FetchErr Str :=
  match o with
  | .reqError m => .error (.createFailed m)
  | .transportError m => .error (.fetchFailed m)
  | .response status retryAfter readErr body alreadyUtf8 convErr converted =>
    if status = 429 ∨ status = 430 then
      .error (.rateLimited retryAfter)
    else if status ≠ 200 then
      .error (.unexpectedStatus url status)
    else
      match readErr with
      | some m => .error (.readBodyFailed m)
      | none =>
        if alreadyUtf8 then .ok body
        else
          match convErr with
          | some m => .error (.convertFailed m)
          | none => .ok converted

/-! ## Go string primitives

`strings.Split`, `strings.TrimSpace` (for the Latin-1 space set that covers
the ASCII inputs handled here), `strings.IndexAny`-based truncation, and
`strconv.Atoi`. -/

/-- The whitespace characters `unicode.IsSpace` recognises below U+0100. -/
def isGoSpace (c : Char) : Bool :=
  c = ' ' ∨ c = '\t' ∨ c = '\n' ∨ c = '\x0b' ∨ c = '\x0c' ∨ c = '\r' ∨
    c = '\x85' ∨ c = '\xa0'

/-- `strings.TrimSpace`: drop leading and trailing whitespace. -/
def trimSpace (s : Str) : Str :=
  ((s.dropWhile isGoSpace).reverse.dropWhile isGoSpace).reverse

/-- `strings.Split(s, sep)` for a one-character separator. -/
def splitOnChar (sep : Char) : Str → List Str
  | [] => [[]]
  | c :: rest =>
    if c = sep then [] :: splitOnChar sep rest
    else
      match splitOnChar sep rest with
      | [] => [[c]]
      | part :: parts => (c :: part) :: parts

/-- The `strings.IndexAny` truncation in `parseSingleProxy`: keep everything
before the first occurrence of any of `seps` (the whole string if none
occurs). -/
def takeBeforeAny (seps : List Char) (s : Str) : Str :=
  s.takeWhile (fun c => ¬ seps.contains c)

/-- Value of a string of decimal digits. -/
def digitsToNat (s : Str) : Nat :=
  s.foldl (fun acc c => acc * 10 + (c.toNat - '0'.toNat)) 0

/-- A nonempty all-digit string, else `none`. -/
def digitsVal (s : Str) : Option Nat :=
  if s = [] ∨ ¬ s.all Char.isDigit then none else some (digitsToNat s)

/-- `strconv.Atoi`: optional sign followed by at least one digit.  Go reports
out-of-range 64-bit values as errors; the callers below reject everything
above 65535 anyway, so the exact value suffices. -/
def goAtoi (s : Str) : Option Int :=
  match s with
  | [] => none
  | c :: rest =>
    if c = '+' then (digitsVal rest).map Int.ofNat
    else if c = '-' then (digitsVal rest).map (fun v => -(Int.ofNat v))
    else (digitsVal (c :: rest)).map Int.ofNat

/-! ## TTL cache (services/cache)

`MemcacheService.Get` returns the stored bytes or an error: a cache miss is
`memcache.ErrCacheMiss`, an unreachable memcached is a transport error.  The
store is modelled as either reachable with some contents or down; TTL expiry
is represented by the key simply being absent from the contents. -/

/-- Why a cache `Get` failed: the key is absent, or the cache is down. -/
inductive GetErr where
  | miss
  | unavailable
deriving DecidableEq, Repr

/-- The memcache backing store as one fetch sees it. -/
inductive CacheView where
  | down
  | up (contents : Str → Option Str)

/-- `CacheService.Get`. -/
def cacheGet : CacheView → Str → Except GetErr Str
  | .down, _ => .error .unavailable
  | .up m, k =>
    match m k with
    | some v => .ok v
    | none => .error .miss

/-- `CacheService.Set`; the `Bool` is whether the call returned an error.
The TTL argument is not modelled beyond the entry being present. -/
def cacheSet : CacheView → Str → Str → CacheView × Bool
  | .down, _, _ => (.down, true)
  | .up m, k, v => (.up (fun k' => if k' = k then some v else m k'), false)

/-! ## BaseCrawler.fetchWithCache (src/internal/crawler/base.go lines 429-453) -/

/-- Errors a unified crawler's fetch can surface. -/
inductive CrawlErr where
  | blocked (key : Str) (blockSeconds : Nat)
  | cacheSetFailed
  | fetchErr (e : FetchErr)
  | bothUnavailable
  | allStrategiesFailed (url : Str)
deriving DecidableEq, Repr

/-- Observable outcome of one `fetchWithCache` call. -/
structure FetchCacheRun where
  result : Except CrawlErr Str
  cache : CacheView
  /-- whether `helpers.FetchWithRandomHeaders` was invoked -/
  fetchInvoked : Bool
  /-- whether `CacheSvc.Set` was invoked to record the rate limit -/
  setAttempted : Bool

/-- The error-handling tail of `fetchWithCache`: on a fetch error whose
message starts with the twelve bytes `rate limited`, record the rate-limit
key (propagating a `Set` failure), then return the original error. -/
def fetchCacheOnError (hasSvc : Bool) (key : Str) (blockSeconds : Nat)
    (cv : CacheView) (e : FetchErr) : FetchCacheRun :=
  if hasSvc = true ∧ key ≠ [] ∧ errMessage e ≠ [] ∧
      (errMessage e).take 12 = rateLimitedTag then
    let res := cacheSet cv key (natDigits blockSeconds)
    if res.2 then ⟨.error .cacheSetFailed, res.1, true, true⟩
    else ⟨.error (.fetchErr e), res.1, true, true⟩
  else ⟨.error (.fetchErr e), cv, true, false⟩

/-- `BaseCrawler.fetchWithCache`: consult the rate-limit key first (a
successful `Get` means blocked), then fetch; `httpRes` is the outcome
`helpers.FetchWithRandomHeaders` would produce. -/
def fetchWithCache (hasSvc : Bool) (key : Str) (blockSeconds : Nat)
    (cv : CacheView) (httpRes : Except FetchErr Str) : FetchCacheRun :=
  if hasSvc = true ∧ key ≠ [] then
    match cacheGet cv key with
    | .ok _ => ⟨.error (.blocked key blockSeconds), cv, false, false⟩
    | .error _ =>
      match httpRes with
      | .ok body => ⟨.ok body, cv, true, false⟩
      | .error e => fetchCacheOnError hasSvc key blockSeconds cv e
  else
    match httpRes with
    | .ok body => ⟨.ok body, cv, true, false⟩
    | .error e => fetchCacheOnError hasSvc key blockSeconds cv e

/-! ## UnifiedCrawler.fetchWithChromeDB (src/internal/crawler/base.go lines 456-547)

The network side effects of the FlareSolverr and ChromeDB endpoints are
supplied as an environment; each field is what the corresponding request
would yield (`none` = the attempt failed, including non-2xx statuses, empty
or non-HTML bodies rejected by `processRawResponse`). -/

/-- Outcomes of the external services one `fetchWithChromeDB` call can
touch. -/
structure ChromeEnv where
  /-- `checkFlareSolverr` succeeds -/
  flareUp : Bool
  /-- `executeFlareSolverrRequest` without proxy -/
  flareNoProxy : Option Str
  /-- the retry with the hardcoded SOCKS proxy -/
  flareWithProxy : Option Str
  /-- the `GET addr+"/"` health probe completes -/
  chromeReachable : Bool
  /-- status code of the health probe (≥ 500 fails the check) -/
  chromeStatus : Nat
  /-- strategy `networkidle-content` after `processRawResponse` -/
  strat1 : Option Str
  /-- strategy `basic-content` after `processRawResponse` -/
  strat2 : Option Str
  /-- strategy `scrape-fallback` after `processRawResponse` -/
  strat3 : Option Str

/-- Observable outcome of one `fetchWithChromeDB` call. -/
structure ChromeRun where
  result : Except CrawlErr Str
  cache : CacheView
  /-- a FlareSolverr request was made -/
  flareAttempted : Bool
  /-- how many ChromeDB strategies were tried -/
  strategiesAttempted : Nat

/-- `checkChromeDBHealth`: fails when the address is unset, the probe does
not complete, or it reports a 5xx status. -/
def chromeHealthOk (addr : Str) (env : ChromeEnv) : Bool :=
  addr ≠ [] && env.chromeReachable && decide (env.chromeStatus < 500)

/-- The ChromeDB half of `fetchWithChromeDB`: health check, then the three
strategies in order, first success wins; if all fail, record the rate-limit
key with the 60-second cooldown (a failed `Set` is only logged) and return
the aggregate failure.  Note: no rate-limit gate check happens anywhere in
this function. -/
def chromePhase (hasSvc : Bool) (key : Str) (addr : Str) (url : Str)
    (cv : CacheView) (env : ChromeEnv) (flareTried : Bool) : ChromeRun :=
  if ¬ chromeHealthOk addr env then ⟨.error .bothUnavailable, cv, flareTried, 0⟩
  else
    match env.strat1 with
    | some body => ⟨.ok body, cv, flareTried, 1⟩
    | none =>
      match env.strat2 with
      | some body => ⟨.ok body, cv, flareTried, 2⟩
      | none =>
        match env.strat3 with
        | some body => ⟨.ok body, cv, flareTried, 3⟩
        | none =>
          let cv' := if hasSvc = true ∧ key ≠ [] then (cacheSet cv key (natDigits 60)).1 else cv
          ⟨.error (.allStrategiesFailed url), cv', flareTried, 3⟩

/-- `UnifiedCrawler.fetchWithChromeDB`: FlareSolverr first (without, then
with proxy), falling back to the ChromeDB strategies. -/
def fetchWithChromeDB (hasSvc : Bool) (key : Str) (addr : Str) (url : Str)
    (cv : CacheView) (env : ChromeEnv) : ChromeRun :=
  if env.flareUp then
    match env.flareNoProxy with
    | some body => ⟨.ok body, cv, true, 0⟩
    | none =>
      match env.flareWithProxy with
      | some body => ⟨.ok body, cv, true, 0⟩
      | none => chromePhase hasSvc key addr url cv env true
  else chromePhase hasSvc key addr url cv env false

/-! ## NewUnifiedCrawler wiring (src/internal/crawler/unified_crawler.go lines 23-49)

The constructor picks exactly one fetch function per crawler: ChromeDB when
`config.UseChrome` is set and a ChromeDB address is configured, the direct
`fetchWithCache` otherwise.  `FetchDeals` then calls only that function. -/

/-- The `NewUnifiedCrawler` condition selecting `fetchWithChromeDB`. -/
def usesChromeDB (useChrome : Bool) (addr : Str) : Bool :=
  useChrome && decide (addr ≠ [])

/-- Observable outcome of the fetch step of one `FetchDeals` call. -/
structure UnifiedFetchRun where
  result : Except CrawlErr Str
  cache : CacheView
  /-- `helpers.FetchWithRandomHeaders` (the direct tier) was invoked -/
  directInvoked : Bool
  /-- a FlareSolverr request (the challenge-bypass tier) was made -/
  flareAttempted : Bool
  /-- how many ChromeDB render strategies were tried -/
  strategiesAttempted : Nat

/-- The fetch step of `UnifiedCrawler.FetchDeals`: run whichever fetch
function `NewUnifiedCrawler` installed. -/
def unifiedFetch (useChrome : Bool) (addr : Str) (hasSvc : Bool) (key : Str)
    (blockSeconds : Nat) (url : Str) (cv : CacheView) (http : HttpOutcome)
    (env : ChromeEnv) : UnifiedFetchRun :=
  if usesChromeDB useChrome addr then
    let r := fetchWithChromeDB hasSvc key addr url cv env
    ⟨r.result, r.cache, false, r.flareAttempted, r.strategiesAttempted⟩
  else
    let r := fetchWithCache hasSvc key blockSeconds cv (fetchWithRandomHeaders url http)
    ⟨r.result, r.cache, r.fetchInvoked, false, 0⟩

/-! ## Proxy candidate parsing (services/cache/memcache_test.go, package proxy)

`parseSingleProxy`, `isValidPublicIP`, `getCountryFromIP` and the line loop
of `parseProxyText` for the one-proxy-per-line sources (every source except
spys.me; the spys.me branch is not touched by the claims). -/

/-- A parsed IPv4 address, as `net.ParseIP(...).To4()` exposes it. -/
structure IPv4 where
  a : Nat
  b : Nat
  c : Nat
  d : Nat
deriving DecidableEq, Repr

/-- One dotted-quad field as Go's `net.ParseIP` accepts it: one to three
decimal digits, no leading zero, value at most 255. -/
def parseOctet (s : Str) : Option Nat :=
  if s = [] then none
  else if ¬ s.all Char.isDigit then none
  else if 1 < s.length ∧ s.headD '0' = '0' then none
  else
    let v := digitsToNat s
    if v ≤ 255 then some v else none

/-- `net.ParseIP` restricted to dotted-quad IPv4 (the hosts fed to it here
come from a split on `:` and therefore cannot be IPv6 strings). -/
def parseIPv4 (s : Str) : Option IPv4 :=
  match splitOnChar '.' s with
  | [p1, p2, p3, p4] =>
    match parseOctet p1, parseOctet p2, parseOctet p3, parseOctet p4 with
    | some a, some b, some c, some d => some ⟨a, b, c, d⟩
    | _, _, _, _ => none
  | _ => none

/-- `isValidPublicIP` (memcache_test.go lines 388-413), translated branch by
branch.  Note the multicast test compares the first octet with 224 only. -/
def isValidPublicIP (ip : IPv4) : Bool :=
  if ip.a = 0 ∨ ip.a = 127 ∨ ip.a = 10 ∨
      (ip.a = 172 ∧ 16 ≤ ip.b ∧ ip.b ≤ 31) ∨
      (ip.a = 192 ∧ ip.b = 168) ∨
      (ip.a = 169 ∧ ip.b = 254) ∨
      ip.a = 224 ∨
      240 ≤ ip.a then false
  else if ip.d = 0 ∨ ip.d = 255 then false
  else true

/-- String prefix test (`strings.HasPrefix`). -/
def strStartsWith (s pre : Str) : Bool :=
  pre.isPrefixOf s

/-- `getCountryFromIP` (memcache_test.go lines 416-478): known cloud-range
prefixes first, then the first-octet switch. -/
def getCountryFromIP (host : Str) : Str :=
  match parseIPv4 host with
  | none => "Unknown".data
  | some ip =>
    if strStartsWith host "8.".data ∨ strStartsWith host "47.".data ∨
        strStartsWith host "39.".data then "CN".data
    else if strStartsWith host "3.".data ∨ strStartsWith host "13.".data ∨
        strStartsWith host "18.".data then "US".data
    else if strStartsWith host "34.".data ∨ strStartsWith host "35.".data then "US".data
    else if 1 ≤ ip.a ∧ ip.a ≤ 2 then "US".data
    else if 5 ≤ ip.a ∧ ip.a ≤ 23 then "US".data
    else if 24 ≤ ip.a ∧ ip.a ≤ 39 then "US".data
    else if 40 ≤ ip.a ∧ ip.a ≤ 79 then "EU".data
    else if 80 ≤ ip.a ∧ ip.a ≤ 95 then "EU".data
    else if 96 ≤ ip.a ∧ ip.a ≤ 126 then "US".data
    else if 128 ≤ ip.a ∧ ip.a ≤ 159 then "US".data
    else if 160 ≤ ip.a ∧ ip.a ≤ 191 then "Various".data
    else if 192 ≤ ip.a ∧ ip.a ≤ 195 then "EU".data
    else if 196 ≤ ip.a ∧ ip.a ≤ 197 then "AF".data
    else if 198 ≤ ip.a ∧ ip.a ≤ 199 then "US".data
    else if 200 ≤ ip.a ∧ ip.a ≤ 201 then "LA".data
    else if 202 ≤ ip.a ∧ ip.a ≤ 203 then "AP".data
    else if 210 ≤ ip.a ∧ ip.a ≤ 211 then "AP".data
    else if 218 ≤ ip.a ∧ ip.a ≤ 222 then "AP".data
    else "Unknown".data

/-- The `proxyInfo` struct of the proxy package.  `latency` and `lastTest`
are `time.Duration`/`time.Time` values modelled as nanosecond counts. -/
structure proxyInfo where
  host : Str
  port : Int
  ptype : Str
  country : Str
  latency : Nat
  lastTest : Nat
  working : Bool
deriving DecidableEq, Repr

/-- The `badPorts` map of `parseSingleProxy`, in source order. -/
def badPortsSingle (p : Int) : Bool :=
  p ∈ ([22, 23, 25, 53, 110, 143, 443, 993, 995, 3389, 5432, 3306] : List Int)

/-- `parseSingleProxy` (memcache_test.go lines 242-308). -/
def parseSingleProxy (line : Str) : Option proxyInfo :=
  match splitOnChar ':' line with
  | hostRaw :: portRaw :: _ =>
    let host := trimSpace hostRaw
    let portStr := takeBeforeAny [' ', '\t', '\r', '\n'] (trimSpace portRaw)
    match parseIPv4 host with
    | none => none
    | some ip =>
      if ¬ isValidPublicIP ip then none
      else
        match goAtoi portStr with
        | none => none
        | some port =>
          if port ≤ 0 ∨ 65535 < port then none
          else if badPortsSingle port then none
          else if port < 80 ∨ 65000 < port then none
          else some ⟨host, port, "socks5".data, getCountryFromIP host, 0, 0, false⟩
  | _ => none

/-- The per-line loop of `parseProxyText` (memcache_test.go lines 173-239)
for non-spys.me sources: trim, skip blanks, comments and lines shorter than
seven bytes, collect the candidates `parseSingleProxy` yields. -/
def parseProxyTextSimple (body : Str) : List proxyInfo :=
  (splitOnChar '\n' body).filterMap fun raw =>
    let line := trimSpace raw
    if line = [] ∨ strStartsWith line "#".data ∨ line.length < 7 then none
    else parseSingleProxy line

/-! ## Latency test and SOCKS5 handshake (memcache_test.go lines 481-541) -/

/-- One candidate's TCP connection, as the tester sees it: whether the dial
succeeded, whether the 3-byte greeting write succeeded, and the bytes the
peer sent back before the 3-second deadline (`none`: nothing arrived, so the
read timed out, or the read otherwise failed). -/
structure ConnOutcome where
  connectOk : Bool
  writeOk : Bool
  reply : Option (List Nat)
deriving DecidableEq, Repr

/-- `conn.Read(authResp)` with `authResp := make([]byte, 2)`: a read on a
dead or silent connection errors; otherwise one read returns the available
bytes, at most two, into the zero-initialised buffer. -/
def readTwo : Option (List Nat) → Option (Nat × Nat)
  | none => none
  | some [] => none
  | some (b0 :: rest) => some (b0, rest.headD 0)

/-- `testSOCKS5Handshake` (lines 514-541): write `05 01 00`, read up to two
bytes, require buffer contents `05 00`. -/
def testSOCKS5Handshake (c : ConnOutcome) : Bool :=
  if ¬ c.writeOk then false
  else
    match readTwo c.reply with
    | none => false
    | some (ver, method) => ver = 5 ∧ method = 0

/-- One nanosecond-count hour, the sentinel latency `time.Hour`. -/
def hourNs : Nat := 3600 * 1000000000

/-- `testProxyLatency` (lines 481-511): TCP connect, then the SOCKS5
handshake; only if both succeed is the candidate marked working, with the
measured elapsed time as latency. -/
def testProxyLatency (p : proxyInfo) (c : ConnOutcome) (elapsed now : Nat) : proxyInfo :=
  if ¬ c.connectOk then { p with working := false, latency := hourNs }
  else if ¬ testSOCKS5Handshake c then { p with working := false, latency := hourNs }
  else { p with working := true, latency := elapsed, lastTest := now }

/-! ## UpdateProxies (memcache_test.go lines 544-667) and GetTopProxies -/

/-- The network behaviour of candidate testing during one refresh: each
candidate's connection outcome and measured elapsed time. -/
structure TestEnv where
  conn : proxyInfo → ConnOutcome
  elapsed : proxyInfo → Nat

/-- `ProxyManagerImpl`'s mutable state. -/
structure PMState where
  proxies : List proxyInfo
  lastUpdate : Nat
deriving Repr

/-- The 30-minute `updateInterval`, in nanoseconds. -/
def updateIntervalNs : Nat := 30 * 60 * 1000000000

/-- `targetCount` of `UpdateProxies`. -/
def targetCount : Nat := 5

/-- `batchSize` of `UpdateProxies`. -/
def batchSize : Nat := 50

/-- Test one batch: each candidate is tested (each tester goroutine works on
its own copy) and the working ones are collected, here in batch order. -/
def testBatch (env : TestEnv) (now : Nat) (batch : List proxyInfo) : List proxyInfo :=
  (batch.map (fun p => testProxyLatency p (env.conn p) (env.elapsed p) now)).filter
    (fun p => p.working)

/-- Insert into a latency-sorted list. -/
def insertByLatency (p : proxyInfo) : List proxyInfo → List proxyInfo
  | [] => [p]
  | q :: qs =>
    if p.latency ≤ q.latency then p :: q :: qs else q :: insertByLatency p qs

/-- The `sort.Slice(workingProxies, latency-ascending)` step, as insertion
sort (same sortedness and same elements). -/
def sortByLatency : List proxyInfo → List proxyInfo
  | [] => []
  | p :: ps => insertByLatency p (sortByLatency ps)

/-- Structural helper for `batchChunks`: the fuel bounds the number of
chunks (one unit per chunk suffices since every chunk is nonempty). -/
def chunksFuel : Nat → List proxyInfo → List (List proxyInfo)
  | 0, _ => []
  | _, [] => []
  | fuel + 1, p :: ps =>
    (p :: ps.take (batchSize - 1)) :: chunksFuel fuel (ps.drop (batchSize - 1))

/-- The candidate list cut into batches of `batchSize`, as the loop
`for i := 0; i < len; i += batchSize` slices it. -/
def batchChunks (l : List proxyInfo) : List (List proxyInfo) :=
  chunksFuel l.length l

/-- The batch loop of `UpdateProxies`: at each head the loop continues only
while fewer than `targetCount*2` working candidates are known; after every
batch the collected working candidates are sorted by latency, and the loop
breaks once at least `targetCount` are known.  Returns the collected list
and how many candidates were tested. -/
def updateLoop (env : TestEnv) (now : Nat) :
    List (List proxyInfo) → List proxyInfo → Nat → List proxyInfo × Nat
  | [], working, tested => (working, tested)
  | b :: rest, working, tested =>
    if working.length < targetCount * 2 then
      let working2 := sortByLatency (working ++ testBatch env now b)
      if targetCount ≤ working2.length then (working2, tested + b.length)
      else updateLoop env now rest working2 (tested + b.length)
    else (working, tested)

/-- Observable outcome of one `UpdateProxies` call. -/
structure UpdateRun where
  state : PMState
  /-- `true` when the call returned `nil` -/
  ok : Bool
  /-- how many candidates were latency-tested -/
  tested : Nat
deriving Repr

/-- `UpdateProxies` (lines 544-667).  `fetched` is what
`fetchProxiesFromMultipleSources` yielded (`none`: every source failed). -/
def updateProxies (pm : PMState) (now : Nat) (fetched : Option (List proxyInfo))
    (env : TestEnv) : UpdateRun :=
  if now - pm.lastUpdate < updateIntervalNs ∧ pm.proxies ≠ [] then ⟨pm, true, 0⟩
  else
    match fetched with
    | none => if pm.proxies ≠ [] then ⟨pm, true, 0⟩ else ⟨pm, false, 0⟩
    | some newProxies =>
      if newProxies = [] then
        if pm.proxies ≠ [] then ⟨pm, true, 0⟩ else ⟨pm, false, 0⟩
      else
        let wt := updateLoop env now (batchChunks newProxies) [] 0
        let final := if targetCount < wt.1.length then wt.1.take targetCount else wt.1
        ⟨⟨final, now⟩, true, wt.2⟩

/-- The exported `ProxyInfo` struct (same fields as `proxyInfo`). -/
structure ProxyInfoOut where
  host : Str
  port : Int
  ptype : Str
  country : Str
  latency : Nat
  lastTest : Nat
  working : Bool
deriving DecidableEq, Repr

/-- The copy `GetFastestProxy`/`GetTopProxies` build per entry. -/
def toProxyInfoOut (p : proxyInfo) : ProxyInfoOut :=
  ⟨p.host, p.port, p.ptype, p.country, p.latency, p.lastTest, p.working⟩

/-- `GetTopProxies` (lines 709-731): clamp `n` to the pool size and copy the
first `n` entries. -/
def getTopProxies (pm : PMState) (n : Nat) : List ProxyInfoOut :=
  let n' := if pm.proxies.length < n then pm.proxies.length else n
  (pm.proxies.take n').map toProxyInfoOut

/-! ## Worker aggregation (services/worker/worker.go lines 92-237) -/

/-- The `HotDeal` record (internal/crawler/types.go). -/
structure HotDealRec where
  id : Str
  title : Str
  link : Str
  price : Str
  thumbnail : Str
  thumbnailLink : Str
  postedAt : Str
  category : Str
  provider : Str
deriving DecidableEq, Repr

/-- The `crawlerResult` a single job reports. -/
structure CrawlerResult where
  success : Bool
  dealCount : Nat
deriving DecidableEq, Repr

/-- The `CrawlResults` cycle summary. -/
structure CrawlResults where
  totalDeals : Nat
  successfulCrawlers : Nat
  failedCrawlers : Nat
deriving DecidableEq, Repr

/-- `crawlAndPublish` (worker.go lines 150-237): a fetch/extract error makes
the job a failure with no deals; otherwise each fetched deal is published,
counting those whose JSON marshalling and publish both succeed (per-deal
failures are logged and skipped). -/
def crawlAndPublish (fetchRes : Except CrawlErr (List HotDealRec))
    (marshalOk publishOk : HotDealRec → Bool) : CrawlerResult :=
  match fetchRes with
  | .error _ => ⟨false, 0⟩
  | .ok deals => ⟨true, (deals.filter (fun d => marshalOk d && publishOk d)).length⟩

/-- The result-collection step of `runCrawlers` (worker.go lines 120-129). -/
def collectStep (acc : CrawlResults) (r : CrawlerResult) : CrawlResults :=
  if r.success then
    ⟨acc.totalDeals + r.dealCount, acc.successfulCrawlers + 1, acc.failedCrawlers⟩
  else ⟨acc.totalDeals, acc.successfulCrawlers, acc.failedCrawlers + 1⟩

/-- `runCrawlers`' aggregation over the per-crawler results (each crawler
goroutine sends exactly one result). -/
def collectResults (rs : List CrawlerResult) : CrawlResults :=
  rs.foldl collectStep ⟨0, 0, 0⟩

/-! ## Spec-side notions used to settle the claims -/

/-- The spec's own public-IPv4 notion, read off its words: not loopback, not
RFC1918 private, not link-local, not multicast (224.0.0.0/4), not reserved
(240.0.0.0/4), not a `.255` broadcast host. -/
def specPublicIPv4 (ip : IPv4) : Prop :=
  ip.a ≠ 127 ∧ ip.a ≠ 10 ∧ ¬(ip.a = 172 ∧ 16 ≤ ip.b ∧ ip.b ≤ 31) ∧
    ¬(ip.a = 192 ∧ ip.b = 168) ∧ ¬(ip.a = 169 ∧ ip.b = 254) ∧
    ¬(224 ≤ ip.a ∧ ip.a ≤ 239) ∧ ip.a < 240 ∧ ip.d ≠ 255

instance : DecidablePred specPublicIPv4 := fun ip => by
  unfold specPublicIPv4; infer_instance

/-- The public-IPv4 notion the code actually enforces, in spec vocabulary:
as `specPublicIPv4` but with the multicast rejection narrowed to first octet
exactly 224 and with `0.x.x.x` hosts and final octets 0 also rejected. -/
def amendedPublicIPv4 (ip : IPv4) : Prop :=
  ip.a ≠ 0 ∧ ip.a ≠ 127 ∧ ip.a ≠ 10 ∧ ¬(ip.a = 172 ∧ 16 ≤ ip.b ∧ ip.b ≤ 31) ∧
    ¬(ip.a = 192 ∧ ip.b = 168) ∧ ¬(ip.a = 169 ∧ ip.b = 254) ∧
    ip.a ≠ 224 ∧ ip.a < 240 ∧ ip.d ≠ 0 ∧ ip.d ≠ 255

instance : DecidablePred amendedPublicIPv4 := fun ip => by
  unfold amendedPublicIPv4; infer_instance

/-- Loopback, private or reserved first octet — the IP classes the spec's
zero-candidates test case uses. -/
def specBadIP (ip : IPv4) : Prop :=
  ip.a = 127 ∨ ip.a = 10 ∨ (ip.a = 172 ∧ 16 ≤ ip.b ∧ ip.b ≤ 31) ∨
    (ip.a = 192 ∧ ip.b = 168) ∨ 240 ≤ ip.a

/-- The port denylist as the claim lists it. -/
def specDenylist : List Int := [22, 23, 25, 53, 110, 143, 443, 993, 995, 3306, 3389, 5432]

/-- The host IP a proxy-list line carries: first `:`-field of the trimmed
line, parsed as IPv4 (used to state the zero-candidates direction). -/
def lineHostIP (raw : Str) : Option IPv4 :=
  match splitOnChar ':' (trimSpace raw) with
  | hostRaw :: _ :: _ => parseIPv4 (trimSpace hostRaw)
  | _ => none

/-- The candidate count the amended early-stop rule predicts: batches are
tested in order and testing stops right after the first batch at whose end
the cumulative working count has reached `targetCount`. -/
def claimedTested (env : TestEnv) (now : Nat) :
    List (List proxyInfo) → Nat → Nat
  | [], _ => 0
  | b :: rest, cur =>
    let cur' := cur + (testBatch env now b).length
    b.length + (if targetCount ≤ cur' then 0 else claimedTested env now rest cur')

/-- Latency order on pool entries. -/
def latLe (p q : proxyInfo) : Prop := p.latency ≤ q.latency

instance : DecidableRel latLe := fun p q => by
  unfold latLe; infer_instance

/-- Latency order on exported pool entries. -/
def latLeOut (p q : ProxyInfoOut) : Prop := p.latency ≤ q.latency

/-- The candidate count the claim's early-stop rule predicts: testing stops
only once the cumulative working count has reached `targetCount * 2`. -/
def specTestedTwiceN (env : TestEnv) (now : Nat) :
    List (List proxyInfo) → Nat → Nat
  | [], _ => 0
  | b :: rest, cur =>
    let cur' := cur + (testBatch env now b).length
    b.length + (if targetCount * 2 ≤ cur' then 0 else specTestedTwiceN env now rest cur')

/-- Componentwise sum of two cycle summaries. -/
def combineResults (x y : CrawlResults) : CrawlResults :=
  ⟨x.totalDeals + y.totalDeals, x.successfulCrawlers + y.successfulCrawlers,
    x.failedCrawlers + y.failedCrawlers⟩

/-- The contribution one crawler's result makes to the cycle summary. -/
def singleResult (r : CrawlerResult) : CrawlResults :=
  if r.success then ⟨r.dealCount, 1, 0⟩ else ⟨0, 0, 1⟩

/-! ## Concrete fixtures used by the counterexamples -/

/-- A synthetic candidate whose port doubles as its identity. -/
def sampleProxy (portv : Nat) : proxyInfo :=
  ⟨"9.9.9.9".data, Int.ofNat portv, "socks5".data, "XX".data, 0, 0, false⟩

/-- Sixty candidates: two batches of testing. -/
def sampleCands : List proxyInfo :=
  (List.range 60).map sampleProxy

/-- A test environment in which exactly the candidates with port below five
(all in the first batch) pass the SOCKS5 handshake. -/
def sampleEnv : TestEnv :=
  ⟨fun p => if p.port < 5 then ⟨true, true, some [5, 0]⟩ else ⟨false, false, none⟩,
    fun p => p.port.toNat⟩

/-- A test environment in which every TCP connect fails. -/
def failEnv : TestEnv :=
  ⟨fun _ => ⟨false, false, none⟩, fun _ => 0⟩

/-- A verified working proxy sitting in the pool before a refresh. -/
def keptProxy : proxyInfo :=
  ⟨"1.2.3.4".data, 1080, "socks5".data, "US".data, 500, 0, true⟩

/-- A candidate record with empty strings (its fields are irrelevant to the
handshake test). -/
def dummyProxy : proxyInfo :=
  ⟨[], 0, [], [], 0, 0, false⟩

/-- A Chrome environment in which nothing is reachable. -/
def idleChromeEnv : ChromeEnv :=
  ⟨false, none, none, false, 0, none, none, none⟩

/-- A Chrome environment in which every tier fails although the ChromeDB
health probe passes. -/
def exhaustEnv : ChromeEnv :=
  ⟨true, none, none, true, 200, none, none, none⟩

/-- A Chrome environment in which the first FlareSolverr request succeeds. -/
def flareOkEnv : ChromeEnv :=
  ⟨true, some ['B'], none, false, 0, none, none, none⟩

/-! # Theorems -/

/-! ## Shared facts about the direct-fetch error messages -/

theorem errMessage_length (e : FetchErr) : 12 ≤ (errMessage e).length := by
  cases e with
  | createFailed w =>
    refine le_trans (by decide : 12 ≤ ("failed to create request: ".data).length) ?_
    rw [show errMessage (.createFailed w) = "failed to create request: ".data ++ w from rfl,
      List.length_append]
    exact Nat.le_add_right _ _
  | fetchFailed w =>
    refine le_trans (by decide : 12 ≤ ("failed to fetch URL: ".data).length) ?_
    rw [show errMessage (.fetchFailed w) = "failed to fetch URL: ".data ++ w from rfl,
      List.length_append]
    exact Nat.le_add_right _ _
  | rateLimited ra =>
    refine le_trans (by decide : 12 ≤ ("rate limited; retry after ".data).length) ?_
    rw [show errMessage (.rateLimited ra) = "rate limited; retry after ".data ++ ra from rfl,
      List.length_append]
    exact Nat.le_add_right _ _
  | unexpectedStatus url code =>
    refine le_trans (by decide : 12 ≤ (" unexpected status code: ".data).length) ?_
    rw [show errMessage (.unexpectedStatus url code)
        = "fetch ".data ++ url ++ " unexpected status code: ".data ++ natDigits code from rfl,
      List.length_append, List.length_append, List.length_append]
    omega
  | readBodyFailed w =>
    refine le_trans (by decide : 12 ≤ ("failed to read response body: ".data).length) ?_
    rw [show errMessage (.readBodyFailed w) = "failed to read response body: ".data ++ w from rfl,
      List.length_append]
    exact Nat.le_add_right _ _
  | convertFailed w =>
    refine le_trans (by decide : 12 ≤ ("failed to read converted UTF-8 body: ".data).length) ?_
    rw [show errMessage (.convertFailed w)
        = "failed to read converted UTF-8 body: ".data ++ w from rfl,
      List.length_append]
    exact Nat.le_add_right _ _

theorem take12_eq_tag_iff (e : FetchErr) :
    (errMessage e).take 12 = rateLimitedTag ↔ isRateLimitedErr e = true := by
  cases e with
  | createFailed w =>
    simp only [errMessage, isRateLimitedErr]
    rw [List.take_append_of_le_length (by decide : 12 ≤ ("failed to create request: ".data).length)]
    simp only [Bool.false_eq_true, iff_false]
    intro h
    exact absurd h (by decide)
  | fetchFailed w =>
    simp only [errMessage, isRateLimitedErr]
    rw [List.take_append_of_le_length (by decide : 12 ≤ ("failed to fetch URL: ".data).length)]
    simp only [Bool.false_eq_true, iff_false]
    intro h
    exact absurd h (by decide)
  | rateLimited ra =>
    simp only [errMessage, isRateLimitedErr]
    rw [List.take_append_of_le_length (by decide : 12 ≤ ("rate limited; retry after ".data).length)]
    simp only [iff_true]
    decide
  | unexpectedStatus url code =>
    simp only [errMessage, isRateLimitedErr]
    rw [List.append_assoc, List.append_assoc]
    rw [List.take_append_eq_append_take]
    simp only [Bool.false_eq_true, iff_false]
    intro h
    have h6 := congrArg (List.take 6) h
    rw [List.take_append_of_le_length (by decide : 6 ≤ ("fetch ".data.take 12).length)] at h6
    exact absurd h6 (by decide)
  | readBodyFailed w =>
    simp only [errMessage, isRateLimitedErr]
    rw [List.take_append_of_le_length (by decide : 12 ≤ ("failed to read response body: ".data).length)]
    simp only [Bool.false_eq_true, iff_false]
    intro h
    exact absurd h (by decide)
  | convertFailed w =>
    simp only [errMessage, isRateLimitedErr]
    rw [List.take_append_of_le_length (by decide : 12 ≤ ("failed to read converted UTF-8 body: ".data).length)]
    simp only [Bool.false_eq_true, iff_false]
    intro h
    exact absurd h (by decide)

theorem errMessage_ne_nil (e : FetchErr) : errMessage e ≠ [] := by
  intro h
  have := errMessage_length e
  rw [h] at this
  simp at this

/-- C10: every error `FetchWithRandomHeaders` can return carries a message of
at least twelve characters, so the byte slice `[:12]` taken by
`fetchWithCache` is always in range (no panic), and — when the crawler has a
cache service, a cache key and is not already blocked — `fetchWithCache`
attempts the rate-limit `Set` exactly when the message starts with the
twelve characters `rate limited` (equivalently, exactly for the 429/430
rejection). -/
theorem c10_message_length_and_rate_limit_gating :
    ∀ (e : FetchErr),
      12 ≤ (errMessage e).length ∧
      ((errMessage e).take 12 = rateLimitedTag ↔ isRateLimitedErr e = true) ∧
      (∀ (key : Str) (bt : Nat) (m : Str → Option Str), key ≠ [] → m key = none →
        ((fetchWithCache true key bt (.up m) (.error e)).setAttempted = true ↔
          (errMessage e).take 12 = rateLimitedTag)) := by
  intro e
  refine ⟨errMessage_length e, take12_eq_tag_iff e, ?_⟩
  intro key bt m hk hm
  by_cases htag : (errMessage e).take 12 = rateLimitedTag
  · simp [fetchWithCache, cacheGet, hm, fetchCacheOnError, cacheSet, hk,
      errMessage_ne_nil e, htag]
  · simp [fetchWithCache, cacheGet, hm, fetchCacheOnError, cacheSet, hk,
      errMessage_ne_nil e, htag]

/-- C10 witness at the 429 rejection with an empty Retry-After header. -/
theorem c10_message_length_witness :
    12 ≤ (errMessage (.rateLimited [])).length ∧
      ((fetchWithCache true ['k'] 60 (.up fun _ => none)
          (.error (.rateLimited []))).setAttempted = true ↔
        (errMessage (.rateLimited [])).take 12 = rateLimitedTag) :=
  ⟨(c10_message_length_and_rate_limit_gating (.rateLimited [])).1,
    (c10_message_length_and_rate_limit_gating (.rateLimited [])).2.2 ['k'] 60
      (fun _ => none) (by decide) rfl⟩

/-! ## C7: the rate-limit gate in fetchWithCache -/

/-- C7: with a cache service and a configured cache key, `fetchWithCache`
fails immediately with the blocked error — making no fetch — exactly when
the cache `Get` for the key succeeds; every `Get` error, a not-found miss as
well as a cache-unavailable error, lets the fetch proceed (fail open). -/
theorem c7_gate_blocked_iff_get_ok :
    ∀ (key : Str) (bt : Nat) (cv : CacheView) (httpRes : Except FetchErr Str),
      key ≠ [] →
      ((∃ v, cacheGet cv key = .ok v) ↔
        ((fetchWithCache true key bt cv httpRes).result = .error (.blocked key bt) ∧
          (fetchWithCache true key bt cv httpRes).fetchInvoked = false)) ∧
      (∀ ge, cacheGet cv key = .error ge →
        (fetchWithCache true key bt cv httpRes).fetchInvoked = true) := by
  intro key bt cv httpRes hk
  have hne : ∀ e, (fetchCacheOnError true key bt cv e).result ≠ .error (.blocked key bt) := by
    intro e
    unfold fetchCacheOnError
    split
    · dsimp only
      split <;> simp
    · simp
  have hinvk : ∀ e, (fetchCacheOnError true key bt cv e).fetchInvoked = true := by
    intro e
    unfold fetchCacheOnError
    split
    · dsimp only
      split <;> rfl
    · rfl
  refine ⟨⟨?_, ?_⟩, ?_⟩
  · rintro ⟨v, hv⟩
    exact ⟨by simp [fetchWithCache, hk, hv], by simp [fetchWithCache, hk, hv]⟩
  · rintro ⟨hres, hinv⟩
    cases hcv : cacheGet cv key with
    | ok v => exact ⟨v, rfl⟩
    | error ge =>
      exfalso
      cases httpRes with
      | ok body => simp [fetchWithCache, hk, hcv] at hres
      | error e =>
        simp only [fetchWithCache, hcv, ite_self] at hres
        exact hne e hres
  · intro ge hge
    cases httpRes with
    | ok body => simp [fetchWithCache, hge]
    | error e =>
      simp only [fetchWithCache, hge, ite_self]
      exact hinvk e

/-- C7 witness: a present key blocks, a miss and a down cache both let the
fetch proceed. -/
theorem c7_gate_witness :
    ((∃ v, cacheGet (.up fun k => if k = ['k'] then some ['1'] else none) ['k'] = .ok v) ↔
      ((fetchWithCache true ['k'] 60 (.up fun k => if k = ['k'] then some ['1'] else none)
          (.ok ['B'])).result = .error (.blocked ['k'] 60) ∧
        (fetchWithCache true ['k'] 60 (.up fun k => if k = ['k'] then some ['1'] else none)
          (.ok ['B'])).fetchInvoked = false)) ∧
      ((fetchWithCache true ['k'] 60 .down (.ok ['B'])).fetchInvoked = true) :=
  ⟨(c7_gate_blocked_iff_get_ok ['k'] 60
      (.up fun k => if k = ['k'] then some ['1'] else none) (.ok ['B']) (by decide)).1,
    (c7_gate_blocked_iff_get_ok ['k'] 60 .down (.ok ['B']) (by decide)).2 .unavailable rfl⟩

/-! ## C6: the SOCKS5 handshake classification -/

/-- C6 counterexample: a stub that replies with the single byte `0x05` is
classified working, although its reply is not exactly the two bytes
`0x05 0x00` — the second buffer byte is never written and keeps its zero
initialisation, so the check `authResp[1] != 0x00` passes vacuously.  This
refutes the claimed "if and only if". -/
theorem c6_counterexample_one_byte_reply :
    (testProxyLatency dummyProxy ⟨true, true, some [5]⟩ 7 9).working = true ∧
      (some [5] : Option (List Nat)) ≠ some [5, 0] :=
  ⟨rfl, by decide⟩

/-- C6 amended: a candidate is classified working iff the TCP connect and the
greeting write succeed and the reply's first byte is `0x05` while its second
byte — or the buffer's zero fill when only one byte arrives — is `0x00`.  In
particular a two-byte reply must be exactly `05 00`, any other two-byte
reply, a failed read and a silent peer are all classified not working, but a
one-byte reply `0x05` is also classified working. -/
theorem c6_amended_handshake_classification :
    ∀ (p : proxyInfo) (c : ConnOutcome) (elapsed now : Nat),
      ((testProxyLatency p c elapsed now).working = true ↔
        (c.connectOk = true ∧ c.writeOk = true ∧
          ∃ b0 rest, c.reply = some (b0 :: rest) ∧ b0 = 5 ∧ rest.headD 0 = 0)) ∧
      (c.connectOk = true → c.writeOk = true → c.reply = some [5, 0] →
        (testProxyLatency p c elapsed now).working = true) ∧
      (∀ x y, c.reply = some [x, y] → ¬(x = 5 ∧ y = 0) →
        (testProxyLatency p c elapsed now).working = false) ∧
      (c.reply = none → (testProxyLatency p c elapsed now).working = false) := by
  intro p c elapsed now
  obtain ⟨co, wo, rep⟩ := c
  cases co with
  | false => rcases rep with _ | ⟨_ | ⟨b0, rest⟩⟩ <;> cases wo <;>
      simp [testProxyLatency, testSOCKS5Handshake, readTwo]
  | true =>
    cases wo with
    | false => rcases rep with _ | ⟨_ | ⟨b0, rest⟩⟩ <;>
        simp [testProxyLatency, testSOCKS5Handshake, readTwo]
    | true =>
      rcases rep with _ | ⟨_ | ⟨b0, rest⟩⟩
      · simp [testProxyLatency, testSOCKS5Handshake, readTwo]
      · simp [testProxyLatency, testSOCKS5Handshake, readTwo]
      · refine ⟨?_, ?_, ?_, ?_⟩
        · cases rest with
          | nil =>
            by_cases hb0 : b0 = 5 <;>
              simp [testProxyLatency, testSOCKS5Handshake, readTwo, hb0]
            exact ⟨5, [], ⟨rfl, rfl⟩, rfl, rfl⟩
          | cons r1 rs =>
            by_cases hb0 : b0 = 5 <;> by_cases hr : r1 = 0 <;>
              simp [testProxyLatency, testSOCKS5Handshake, readTwo, hb0, hr]
            exact ⟨5, 0 :: rs, ⟨rfl, rfl⟩, rfl, rfl⟩
        · intro _ _ hrep
          have hb : b0 = 5 ∧ rest = [0] := by simpa using hrep
          obtain ⟨rfl, rfl⟩ := hb
          simp [testProxyLatency, testSOCKS5Handshake, readTwo]
        · intro x y hrep hxy
          have hb : b0 = x ∧ rest = [y] := by simpa using hrep
          obtain ⟨rfl, rfl⟩ := hb
          by_cases hx : b0 = 5 <;> by_cases hy : y = 0 <;>
            simp [testProxyLatency, testSOCKS5Handshake, readTwo, hx, hy] <;>
              exact absurd ⟨hx, hy⟩ hxy
        · intro h
          simp at h

/-- C6 witness: the amended theorem applied to the spec's three stub
scenarios. -/
theorem c6_amended_witness :
    (testProxyLatency dummyProxy ⟨true, true, some [5, 0]⟩ 7 9).working = true ∧
      (testProxyLatency dummyProxy ⟨true, true, some [5, 7]⟩ 7 9).working = false ∧
      (testProxyLatency dummyProxy ⟨true, true, none⟩ 7 9).working = false :=
  ⟨(c6_amended_handshake_classification dummyProxy ⟨true, true, some [5, 0]⟩ 7 9).2.1
      rfl rfl rfl,
    (c6_amended_handshake_classification dummyProxy ⟨true, true, some [5, 7]⟩ 7 9).2.2.1
      5 7 rfl (by decide),
    (c6_amended_handshake_classification dummyProxy ⟨true, true, none⟩ 7 9).2.2.2 rfl⟩

/-! ## C9: cycle aggregation in the worker -/

theorem collectStep_eq (acc : CrawlResults) (r : CrawlerResult) :
    collectStep acc r = combineResults acc (singleResult r) := by
  unfold collectStep combineResults singleResult
  cases hr : r.success <;> simp

theorem combineResults_zero (x : CrawlResults) : combineResults x ⟨0, 0, 0⟩ = x := by
  simp [combineResults]

theorem combineResults_assoc (x y z : CrawlResults) :
    combineResults (combineResults x y) z = combineResults x (combineResults y z) := by
  simp [combineResults, Nat.add_assoc]

theorem foldl_collectStep (rs : List CrawlerResult) (acc : CrawlResults) :
    rs.foldl collectStep acc = combineResults acc (collectResults rs) := by
  induction rs generalizing acc with
  | nil => simp [collectResults, combineResults]
  | cons r t ih =>
    show t.foldl collectStep (collectStep acc r) = _
    rw [ih (collectStep acc r), collectStep_eq]
    show _ = combineResults acc ((r :: t).foldl collectStep ⟨0, 0, 0⟩)
    show _ = combineResults acc (t.foldl collectStep (collectStep ⟨0, 0, 0⟩ r))
    rw [ih (collectStep ⟨0, 0, 0⟩ r), collectStep_eq, combineResults_assoc]
    congr 1
    show combineResults (singleResult r) (collectResults t)
        = combineResults (combineResults ⟨0, 0, 0⟩ (singleResult r)) (collectResults t)
    congr 1
    simp [combineResults]

theorem collectResults_cons (r : CrawlerResult) (t : List CrawlerResult) :
    collectResults (r :: t) = combineResults (singleResult r) (collectResults t) := by
  show (r :: t).foldl collectStep ⟨0, 0, 0⟩ = _
  show t.foldl collectStep (collectStep ⟨0, 0, 0⟩ r) = _
  rw [foldl_collectStep, collectStep_eq]
  congr 1
  simp [combineResults]

/-- C9: every configured crawler contributes exactly one result, so the
success and failure counters sum to the number of crawlers and `TotalDeals`
is the sum of the successful crawlers' published-deal counts; the aggregate
splits around any one crawler's contribution, so one job's failure leaves
every other job's contribution unchanged; and the three-source scenario with
two successes and one all-tier failure reports exactly
`SuccessfulCrawlers = 2`, `FailedCrawlers = 1` and the summed deal count. -/
theorem c9_cycle_aggregation :
    (∀ rs : List CrawlerResult,
      (collectResults rs).successfulCrawlers + (collectResults rs).failedCrawlers
          = rs.length ∧
        (collectResults rs).totalDeals
          = ((rs.filter (fun r => r.success)).map CrawlerResult.dealCount).sum) ∧
    (∀ (l₁ l₂ : List CrawlerResult) (r : CrawlerResult),
      collectResults (l₁ ++ r :: l₂)
        = combineResults (collectResults l₁)
            (combineResults (singleResult r) (collectResults l₂))) ∧
    (∀ (ds₁ ds₂ : List HotDealRec) (e : CrawlErr),
      collectResults
          [crawlAndPublish (.ok ds₁) (fun _ => true) (fun _ => true),
            crawlAndPublish (.ok ds₂) (fun _ => true) (fun _ => true),
            crawlAndPublish (.error e) (fun _ => true) (fun _ => true)]
        = ⟨ds₁.length + ds₂.length, 2, 1⟩) := by
  have hmain : ∀ rs : List CrawlerResult,
      (collectResults rs).successfulCrawlers + (collectResults rs).failedCrawlers
          = rs.length ∧
        (collectResults rs).totalDeals
          = ((rs.filter (fun r => r.success)).map CrawlerResult.dealCount).sum := by
    intro rs
    induction rs with
    | nil => simp [collectResults]
    | cons r t ih =>
      rw [collectResults_cons]
      cases hr : r.success <;>
        simp [singleResult, combineResults, hr, List.filter_cons, ih.1, ih.2] <;> omega
  refine ⟨hmain, ?_, ?_⟩
  · intro l₁ l₂ r
    induction l₁ with
    | nil =>
      simp only [List.nil_append]
      rw [collectResults_cons]
      show _ = combineResults (collectResults []) _
      simp [collectResults, combineResults]
    | cons a t ih =>
      show collectResults (a :: (t ++ r :: l₂)) = _
      rw [collectResults_cons, ih, collectResults_cons, combineResults_assoc]
  · intro ds₁ ds₂ e
    rw [collectResults_cons, collectResults_cons, collectResults_cons]
    simp [crawlAndPublish, singleResult, combineResults, collectResults]

/-! ## C1: a 429 at the direct tier -/

/-- C1 counterexample: a crawler using the standard fetch path receives a 429
from the direct tier; the call returns the rate-limit error, and no
challenge-bypass (FlareSolverr) request and no render strategy is attempted
in the same Fetch call — tier selection is fixed at construction, so the
claimed fall-through to tier 2 does not happen. -/
theorem c1_counterexample_429_no_tier2 :
    (unifiedFetch false [] true ['k'] 60 ['u'] (.up fun _ => none)
        (.response 429 [] none [] true none []) idleChromeEnv).directInvoked = true ∧
      (unifiedFetch false [] true ['k'] 60 ['u'] (.up fun _ => none)
          (.response 429 [] none [] true none []) idleChromeEnv).result
        = .error (.fetchErr (.rateLimited [])) ∧
      (unifiedFetch false [] true ['k'] 60 ['u'] (.up fun _ => none)
          (.response 429 [] none [] true none []) idleChromeEnv).flareAttempted = false ∧
      (unifiedFetch false [] true ['k'] 60 ['u'] (.up fun _ => none)
          (.response 429 [] none [] true none []) idleChromeEnv).strategiesAttempted = 0 :=
  ⟨rfl, rfl, rfl, rfl⟩

/-- C1 amended: when the direct tier of a standard (non-Chrome) crawler
receives a 429, the Fetch call yields no payload, the error is the
rate-limit rejection — distinguishable from every other fetch error by its
twelve-character prefix — and the crawler records the rate-limit key and
returns without invoking the challenge-bypass tier or any render strategy
(the Chrome tiers belong to crawlers constructed with `UseChrome` and a
ChromeDB address, which never invoke the direct tier). -/
theorem c1_amended_429_rate_limit_no_fallthrough :
    ∀ (url addr key ra body conv : Str) (bt : Nat) (m : Str → Option Str)
      (readErr convErr : Option Str) (utf8 : Bool) (env : ChromeEnv),
      key ≠ [] → m key = none →
      ((unifiedFetch false addr true key bt url (.up m)
            (.response 429 ra readErr body utf8 convErr conv) env).result
          = .error (.fetchErr (.rateLimited ra))) ∧
        (∀ b, (unifiedFetch false addr true key bt url (.up m)
            (.response 429 ra readErr body utf8 convErr conv) env).result ≠ .ok b) ∧
        (errMessage (.rateLimited ra)).take 12 = rateLimitedTag ∧
        (∀ e : FetchErr,
          (errMessage e).take 12 = rateLimitedTag → isRateLimitedErr e = true) ∧
        (unifiedFetch false addr true key bt url (.up m)
            (.response 429 ra readErr body utf8 convErr conv) env).flareAttempted = false ∧
        (unifiedFetch false addr true key bt url (.up m)
            (.response 429 ra readErr body utf8 convErr conv) env).strategiesAttempted = 0 ∧
        (unifiedFetch false addr true key bt url (.up m)
            (.response 429 ra readErr body utf8 convErr conv) env).cache
          = (cacheSet (.up m) key (natDigits bt)).1 ∧
        (∀ (cv₂ : CacheView) (http₂ : HttpOutcome) (env₂ : ChromeEnv),
          (unifiedFetch true (':' :: addr) true key bt url cv₂ http₂ env₂).directInvoked
            = false) := by
  intro url addr key ra body conv bt m readErr convErr utf8 env hk hm
  have htag : (errMessage (.rateLimited ra)).take 12 = rateLimitedTag :=
    (take12_eq_tag_iff (.rateLimited ra)).mpr rfl
  have hfetch : fetchWithRandomHeaders url (.response 429 ra readErr body utf8 convErr conv)
      = .error (.rateLimited ra) := by
    simp [fetchWithRandomHeaders]
  refine ⟨?_, ?_, htag, fun e h => (take12_eq_tag_iff e).mp h, ?_, ?_, ?_, ?_⟩
  · simp [unifiedFetch, usesChromeDB, hfetch, fetchWithCache, cacheGet, hm,
      fetchCacheOnError, cacheSet, hk, errMessage_ne_nil, htag]
  · intro b
    simp [unifiedFetch, usesChromeDB, hfetch, fetchWithCache, cacheGet, hm,
      fetchCacheOnError, cacheSet, hk, errMessage_ne_nil, htag]
  · simp [unifiedFetch, usesChromeDB]
  · simp [unifiedFetch, usesChromeDB]
  · simp [unifiedFetch, usesChromeDB, hfetch, fetchWithCache, cacheGet, hm,
      fetchCacheOnError, cacheSet, hk, errMessage_ne_nil, htag]
  · intro cv₂ http₂ env₂
    simp [unifiedFetch, usesChromeDB]

/-- C1 witness: the amended theorem at a concrete 429 fetch. -/
theorem c1_amended_witness :
    (unifiedFetch false [] true ['k'] 60 ['u'] (.up fun _ => none)
        (.response 429 [] none [] true none []) idleChromeEnv).result
      = .error (.fetchErr (.rateLimited [])) :=
  (c1_amended_429_rate_limit_no_fallthrough ['u'] [] ['k'] [] [] [] 60 (fun _ => none)
      none none true idleChromeEnv (by decide) rfl).1

/-! ## C8: exhaustion, the cooldown key, and the unchecked gate -/

/-- C8 counterexample: after a ChromeDB crawler exhausts all strategies the
rate-limit key is set, yet a subsequent Fetch call for the same source —
with the key still present — does not return a rate-limit error and does
invoke a tier: the FlareSolverr request is made and even returns a payload,
because `fetchWithChromeDB` never consults the gate. -/
theorem c8_counterexample_gate_not_consulted :
    (fetchWithChromeDB true ['k'] ['a'] ['u'] (.up fun _ => none) exhaustEnv).result
        = .error (.allStrategiesFailed ['u']) ∧
      cacheGet (fetchWithChromeDB true ['k'] ['a'] ['u'] (.up fun _ => none)
          exhaustEnv).cache ['k'] = .ok (natDigits 60) ∧
      (fetchWithChromeDB true ['k'] ['a'] ['u']
          (fetchWithChromeDB true ['k'] ['a'] ['u'] (.up fun _ => none) exhaustEnv).cache
          flareOkEnv).result = .ok ['B'] ∧
      (fetchWithChromeDB true ['k'] ['a'] ['u']
          (fetchWithChromeDB true ['k'] ['a'] ['u'] (.up fun _ => none) exhaustEnv).cache
          flareOkEnv).flareAttempted = true :=
  ⟨rfl, rfl, rfl, rfl⟩

/-- C8 amended: when the health probe passes and the FlareSolverr attempts
and all three ChromeDB strategies fail, `fetchWithChromeDB` records the
rate-limit key with its 60-second cooldown and returns the aggregate
failure; however, `fetchWithChromeDB` never consults the gate, so a
subsequent call for the same source proceeds to the tiers regardless of the
cache state — in particular a working FlareSolverr yields a payload. -/
theorem c8_amended_cooldown_set_but_gate_unchecked :
    ∀ (key addr url : Str) (m : Str → Option Str) (env : ChromeEnv),
      key ≠ [] →
      env.flareNoProxy = none → env.flareWithProxy = none →
      chromeHealthOk addr env = true →
      env.strat1 = none → env.strat2 = none → env.strat3 = none →
      ((fetchWithChromeDB true key addr url (.up m) env).result
          = .error (.allStrategiesFailed url) ∧
        (fetchWithChromeDB true key addr url (.up m) env).cache
          = (cacheSet (.up m) key (natDigits 60)).1) ∧
      (∀ (cv₂ : CacheView) (env₂ : ChromeEnv) (b : Str),
        env₂.flareUp = true → env₂.flareNoProxy = some b →
        (fetchWithChromeDB true key addr url cv₂ env₂).result = .ok b ∧
        (fetchWithChromeDB true key addr url cv₂ env₂).flareAttempted = true) := by
  intro key addr url m env hk h1 h2 hh h3 h4 h5
  constructor
  · cases hup : env.flareUp <;>
      simp [fetchWithChromeDB, hup, h1, h2, chromePhase, hh, h3, h4, h5, hk]
  · intro cv₂ env₂ b hup hbody
    simp [fetchWithChromeDB, hup, hbody]

/-- C8 witness: the amended theorem at the concrete exhaustion scenario. -/
theorem c8_amended_witness :
    (fetchWithChromeDB true ['k'] ['a'] ['u'] (.up fun _ => none) exhaustEnv).result
        = .error (.allStrategiesFailed ['u']) ∧
      (fetchWithChromeDB true ['k'] ['a'] ['u'] (.up fun _ => none) exhaustEnv).cache
        = (cacheSet (.up fun _ => none) ['k'] (natDigits 60)).1 :=
  (c8_amended_cooldown_set_but_gate_unchecked ['k'] ['a'] ['u'] (fun _ => none)
      exhaustEnv (by decide) rfl rfl (by decide) rfl rfl rfl).1

/-! ## Sorting and loop lemmas for the proxy pool -/

theorem length_insertByLatency (p : proxyInfo) (l : List proxyInfo) :
    (insertByLatency p l).length = l.length + 1 := by
  induction l with
  | nil => rfl
  | cons q qs ih =>
    by_cases h : p.latency ≤ q.latency <;> simp [insertByLatency, h, ih]

theorem length_sortByLatency (l : List proxyInfo) :
    (sortByLatency l).length = l.length := by
  induction l with
  | nil => rfl
  | cons p ps ih => simp [sortByLatency, length_insertByLatency, ih]

theorem mem_insertByLatency {x p : proxyInfo} {l : List proxyInfo} :
    x ∈ insertByLatency p l ↔ x = p ∨ x ∈ l := by
  induction l with
  | nil => simp [insertByLatency]
  | cons q qs ih =>
    by_cases h : p.latency ≤ q.latency <;>
      simp [insertByLatency, h, ih] <;> tauto

theorem mem_sortByLatency {x : proxyInfo} {l : List proxyInfo} :
    x ∈ sortByLatency l ↔ x ∈ l := by
  induction l with
  | nil => simp [sortByLatency]
  | cons p ps ih => simp [sortByLatency, mem_insertByLatency, ih]

theorem sorted_insertByLatency {p : proxyInfo} {l : List proxyInfo}
    (h : List.Sorted latLe l) : List.Sorted latLe (insertByLatency p l) := by
  induction l with
  | nil => simp [insertByLatency, latLe]
  | cons q qs ih =>
    rw [List.sorted_cons] at h
    obtain ⟨hq, hqs⟩ := h
    by_cases hle : p.latency ≤ q.latency
    · rw [insertByLatency, if_pos hle, List.sorted_cons]
      refine ⟨?_, List.sorted_cons.mpr ⟨hq, hqs⟩⟩
      intro b hb
      rcases List.mem_cons.mp hb with rfl | hb
      · exact hle
      · exact le_trans hle (hq b hb)
    · rw [insertByLatency, if_neg hle, List.sorted_cons]
      refine ⟨?_, ih hqs⟩
      intro b hb
      rcases mem_insertByLatency.mp hb with rfl | hb
      · exact Nat.le_of_not_le hle
      · exact hq b hb

theorem sorted_sortByLatency (l : List proxyInfo) :
    List.Sorted latLe (sortByLatency l) := by
  induction l with
  | nil => simp [sortByLatency]
  | cons p ps ih => exact sorted_insertByLatency ih

theorem working_of_mem_testBatch {env : TestEnv} {now : Nat} {b : List proxyInfo}
    {p : proxyInfo} (h : p ∈ testBatch env now b) : p.working = true := by
  unfold testBatch at h
  exact List.of_mem_filter h

theorem updateLoop_sorted (env : TestEnv) (now : Nat)
    (batches : List (List proxyInfo)) (working : List proxyInfo) (tested : Nat)
    (h : List.Sorted latLe working) :
    List.Sorted latLe (updateLoop env now batches working tested).1 := by
  induction batches generalizing working tested with
  | nil => exact h
  | cons b rest ih =>
    rw [updateLoop]
    split
    · dsimp only
      split
      · exact sorted_sortByLatency _
      · exact ih _ _ (sorted_sortByLatency _)
    · exact h

theorem updateLoop_working (env : TestEnv) (now : Nat)
    (batches : List (List proxyInfo)) (working : List proxyInfo) (tested : Nat)
    (h : ∀ p ∈ working, p.working = true) :
    ∀ p ∈ (updateLoop env now batches working tested).1, p.working = true := by
  induction batches generalizing working tested with
  | nil => exact h
  | cons b rest ih =>
    have hstep : ∀ p ∈ sortByLatency (working ++ testBatch env now b), p.working = true := by
      intro p hp
      rcases List.mem_append.mp (mem_sortByLatency.mp hp) with hp | hp
      · exact h p hp
      · exact working_of_mem_testBatch hp
    rw [updateLoop]
    split
    · dsimp only
      split
      · exact hstep
      · exact ih _ _ hstep
    · exact h

theorem updateLoop_tested (env : TestEnv) (now : Nat)
    (batches : List (List proxyInfo)) (working : List proxyInfo) (tested cur : Nat)
    (hlen : working.length = cur) (hcur : cur < targetCount) :
    (updateLoop env now batches working tested).2
      = tested + claimedTested env now batches cur := by
  induction batches generalizing working tested cur with
  | nil => simp [updateLoop, claimedTested]
  | cons b rest ih =>
    have hlt : working.length < targetCount * 2 := by
      rw [hlen]; unfold targetCount at hcur ⊢; omega
    have hlen2 : (sortByLatency (working ++ testBatch env now b)).length
        = cur + (testBatch env now b).length := by
      rw [length_sortByLatency, List.length_append, hlen]
    rw [updateLoop, if_pos hlt]
    dsimp only
    by_cases hstop : targetCount ≤ cur + (testBatch env now b).length
    · rw [if_pos (by rw [hlen2]; exact hstop)]
      rw [claimedTested]
      simp only [if_pos hstop]
      omega
    · rw [if_neg (by rw [hlen2]; exact hstop)]
      rw [ih _ _ _ hlen2 (by omega)]
      rw [claimedTested]
      simp only [if_neg hstop]
      omega

theorem updateLoop_allfail (env : TestEnv) (now : Nat)
    (batches : List (List proxyInfo)) (tested : Nat)
    (h : ∀ p, (testProxyLatency p (env.conn p) (env.elapsed p) now).working = false) :
    (updateLoop env now batches [] tested).1 = [] := by
  have hb : ∀ b : List proxyInfo, testBatch env now b = [] := by
    intro b
    unfold testBatch
    rw [List.filter_eq_nil]
    intro p hp
    rcases List.mem_map.mp hp with ⟨q, _, rfl⟩
    simp [h q]
  induction batches generalizing tested with
  | nil => rfl
  | cons b rest ih =>
    rw [updateLoop, if_pos (show ([] : List proxyInfo).length < targetCount * 2 by decide)]
    dsimp only
    rw [hb b]
    rw [show sortByLatency ([] ++ []) = [] from rfl]
    rw [if_neg (show ¬ targetCount ≤ ([] : List proxyInfo).length by decide)]
    exact ih _

theorem getTopProxies_length (pm : PMState) (n : Nat) :
    (getTopProxies pm n).length = min n pm.proxies.length := by
  unfold getTopProxies
  dsimp only
  rw [List.length_map, List.length_take]
  split <;> omega

theorem getTopProxies_sorted (pm : PMState) (h : List.Sorted latLe pm.proxies) (n : Nat) :
    List.Sorted latLeOut (getTopProxies pm n) := by
  unfold getTopProxies
  dsimp only
  apply List.pairwise_map.mpr
  exact List.Pairwise.sublist (List.take_sublist _ _) h

/-! ## C2: what a refresh that finds zero working candidates does to the pool -/

/-- C2 counterexample: a refresh whose feed fetch succeeds and parses one
candidate that then fails the latency test replaces a non-empty pool with
the empty list — the pool's contents after the call differ from its contents
before, contrary to the claimed graceful degradation. -/
theorem c2_counterexample_pool_emptied :
    (updateProxies ⟨[keptProxy], 0⟩ updateIntervalNs (some [sampleProxy 0])
        failEnv).state.proxies = [] ∧
      ([keptProxy] : List proxyInfo) ≠ [] := by
  exact ⟨by decide, by simp⟩

/-- C2 amended: the pool is left untouched when the feed fetch fails or when
it yields zero parseable candidates; but when candidates were fetched and
every one of them fails the latency/handshake test, the pool is replaced by
the empty list (the previous contents are lost). -/
theorem c2_amended_pool_preserved_only_without_candidates :
    ∀ (pm : PMState) (now : Nat) (fetched : Option (List proxyInfo)) (env : TestEnv),
      ((fetched = none ∨ fetched = some []) →
        (updateProxies pm now fetched env).state.proxies = pm.proxies) ∧
      (∀ l, fetched = some l → l ≠ [] →
        ¬(now - pm.lastUpdate < updateIntervalNs ∧ pm.proxies ≠ []) →
        (∀ p, (testProxyLatency p (env.conn p) (env.elapsed p) now).working = false) →
        (updateProxies pm now fetched env).state.proxies = []) := by
  intro pm now fetched env
  constructor
  · rintro (rfl | rfl)
    · unfold updateProxies
      split
      · rfl
      · dsimp only
        split <;> rfl
    · unfold updateProxies
      split
      · rfl
      · dsimp only
        rw [if_pos rfl]
        split <;> rfl
  · rintro l rfl hl hskip hfail
    have hz := updateLoop_allfail env now (batchChunks l) 0 hfail
    unfold updateProxies
    rw [if_neg hskip]
    dsimp only
    rw [if_neg hl]
    dsimp only
    rw [hz]
    rfl

/-- C2 witness: the amended theorem at a fetch failure over a non-empty pool
and at the concrete all-candidates-fail run. -/
theorem c2_amended_witness :
    (updateProxies ⟨[keptProxy], 0⟩ updateIntervalNs none failEnv).state.proxies
        = [keptProxy] ∧
      (updateProxies ⟨[keptProxy], 0⟩ updateIntervalNs (some [sampleProxy 0])
          failEnv).state.proxies = [] :=
  ⟨(c2_amended_pool_preserved_only_without_candidates ⟨[keptProxy], 0⟩
        updateIntervalNs none failEnv).1 (Or.inl rfl),
    (c2_amended_pool_preserved_only_without_candidates ⟨[keptProxy], 0⟩
        updateIntervalNs (some [sampleProxy 0]) failEnv).2 [sampleProxy 0] rfl
      (by simp) (by simp) (fun p => rfl)⟩

/-! ## C3: where candidate testing stops early -/

/-- C3 counterexample: sixty candidates, of which exactly five — all in the
first batch of fifty — pass the handshake.  The run stops after testing the
first batch (tested = 50) because the inner break fires at `targetCount = 5`
working candidates, although the claimed `2 × N = 10` threshold was never
reached (the claim predicts all sixty candidates are tested). -/
theorem c3_counterexample_stops_at_five :
    (updateProxies ⟨[], 0⟩ updateIntervalNs (some sampleCands) sampleEnv).tested = 50 ∧
      sampleCands.length = 60 ∧
      specTestedTwiceN sampleEnv updateIntervalNs (batchChunks sampleCands) 0 = 60 ∧
      (updateProxies ⟨[], 0⟩ updateIntervalNs (some sampleCands)
          sampleEnv).state.proxies.length = 5 := by
  exact ⟨by decide, by decide, by decide, by decide⟩

/-- C3 amended: candidate testing stops at the end of the first batch at
which the cumulative working count has reached `targetCount = 5` — not
`2 × N = 10`; until that count is reached, remaining batches continue to be
tested.  (The loop head's `2 × N` bound can never fire, since the inner
break exits first.) -/
theorem c3_amended_stop_at_targetCount :
    ∀ (pm : PMState) (now : Nat) (l : List proxyInfo) (env : TestEnv),
      ¬(now - pm.lastUpdate < updateIntervalNs ∧ pm.proxies ≠ []) → l ≠ [] →
      (updateProxies pm now (some l) env).tested
        = claimedTested env now (batchChunks l) 0 := by
  intro pm now l env hskip hl
  have h := updateLoop_tested env now (batchChunks l) [] 0 0 rfl (by decide)
  unfold updateProxies
  rw [if_neg hskip]
  dsimp only
  rw [if_neg hl]
  dsimp only
  omega

/-- C3 witness: the amended theorem at the sixty-candidate scenario; the
amended stop rule predicts exactly the fifty tested candidates observed. -/
theorem c3_amended_witness :
    (updateProxies ⟨[], 0⟩ updateIntervalNs (some sampleCands) sampleEnv).tested
      = claimedTested sampleEnv updateIntervalNs (batchChunks sampleCands) 0 :=
  c3_amended_stop_at_targetCount ⟨[], 0⟩ updateIntervalNs sampleCands sampleEnv
    (by simp) (by decide)

/-! ## C4: pool invariants after a pool-installing refresh -/

/-- C4: after every refresh that installs a new pool, the pool is sorted by
non-decreasing latency, contains only candidates verified working, and has
at most `N = 5` entries; for every `n`, `GetTopProxies n` returns exactly
`min n poolSize ≤ 5` entries, also sorted by non-decreasing latency. -/
theorem c4_pool_invariants_after_refresh :
    ∀ (pm : PMState) (now : Nat) (l : List proxyInfo) (env : TestEnv) (n : Nat),
      ¬(now - pm.lastUpdate < updateIntervalNs ∧ pm.proxies ≠ []) → l ≠ [] →
      List.Sorted latLe (updateProxies pm now (some l) env).state.proxies ∧
      (∀ p ∈ (updateProxies pm now (some l) env).state.proxies, p.working = true) ∧
      (updateProxies pm now (some l) env).state.proxies.length ≤ targetCount ∧
      (getTopProxies (updateProxies pm now (some l) env).state n).length
          = min n (updateProxies pm now (some l) env).state.proxies.length ∧
      (getTopProxies (updateProxies pm now (some l) env).state n).length ≤ targetCount ∧
      List.Sorted latLeOut (getTopProxies (updateProxies pm now (some l) env).state n) := by
  intro pm now l env n hskip hl
  have hstate : (updateProxies pm now (some l) env).state.proxies
      = (if targetCount < (updateLoop env now (batchChunks l) [] 0).1.length then
          (updateLoop env now (batchChunks l) [] 0).1.take targetCount
        else (updateLoop env now (batchChunks l) [] 0).1) := by
    unfold updateProxies
    rw [if_neg hskip]
    dsimp only
    rw [if_neg hl]
  have hsortw : List.Sorted latLe (updateLoop env now (batchChunks l) [] 0).1 :=
    updateLoop_sorted env now (batchChunks l) [] 0 List.sorted_nil
  have hworkw : ∀ p ∈ (updateLoop env now (batchChunks l) [] 0).1, p.working = true :=
    updateLoop_working env now (batchChunks l) [] 0 (by simp)
  have hsorted : List.Sorted latLe (updateProxies pm now (some l) env).state.proxies := by
    rw [hstate]
    split
    · exact List.Pairwise.sublist (List.take_sublist _ _) hsortw
    · exact hsortw
  have hlen : (updateProxies pm now (some l) env).state.proxies.length ≤ targetCount := by
    rw [hstate]
    split
    · rw [List.length_take]; omega
    · omega
  refine ⟨hsorted, ?_, hlen, getTopProxies_length _ n, ?_, getTopProxies_sorted _ hsorted n⟩
  · intro p hp
    rw [hstate] at hp
    split at hp
    · exact hworkw p (List.mem_of_mem_take hp)
    · exact hworkw p hp
  · rw [getTopProxies_length]
    omega

/-- C4 witness: the invariants at the concrete sixty-candidate refresh, for
`n = 3`. -/
theorem c4_pool_invariants_witness :
    (updateProxies ⟨[], 0⟩ updateIntervalNs (some sampleCands) sampleEnv).state.proxies.length
        ≤ targetCount ∧
      (getTopProxies (updateProxies ⟨[], 0⟩ updateIntervalNs (some sampleCands)
            sampleEnv).state 3).length
        = min 3 (updateProxies ⟨[], 0⟩ updateIntervalNs (some sampleCands)
            sampleEnv).state.proxies.length :=
  ⟨(c4_pool_invariants_after_refresh ⟨[], 0⟩ updateIntervalNs sampleCands sampleEnv 3
      (by simp) (by decide)).2.2.1,
    (c4_pool_invariants_after_refresh ⟨[], 0⟩ updateIntervalNs sampleCands sampleEnv 3
      (by simp) (by decide)).2.2.2.1⟩

/-! ## String and parser lemmas for C5 -/

theorem dropWhile_eq_self_of (p : Char → Bool) (s : Str)
    (h : ∀ x ∈ s, p x = false) : s.dropWhile p = s := by
  cases s with
  | nil => rfl
  | cons a t => simp [List.dropWhile_cons, h a (List.mem_cons_self a t)]

theorem trimSpace_eq_self {s : Str} (h : ∀ x ∈ s, isGoSpace x = false) :
    trimSpace s = s := by
  unfold trimSpace
  rw [dropWhile_eq_self_of _ _ h,
    dropWhile_eq_self_of _ _ (fun x hx => h x (List.mem_reverse.mp hx)),
    List.reverse_reverse]

theorem takeBeforeAny_eq_self {seps : List Char} {s : Str}
    (h : ∀ x ∈ s, seps.contains x = false) : takeBeforeAny seps s = s := by
  unfold takeBeforeAny
  rw [List.takeWhile_eq_self_iff]
  intro x hx
  simpa using h x hx

theorem splitOnChar_ne_nil (sep : Char) (s : Str) : splitOnChar sep s ≠ [] := by
  cases s with
  | nil => simp [splitOnChar]
  | cons c rest =>
    rw [splitOnChar]
    split
    · simp
    · cases h : splitOnChar sep rest <;> simp

theorem mem_splitOnChar_of_mem (sep : Char) {x : Char} {s : Str} (h : x ∈ s) :
    x = sep ∨ ∃ part ∈ splitOnChar sep s, x ∈ part := by
  induction s with
  | nil => cases h
  | cons c rest ih =>
    rw [splitOnChar]
    by_cases hc : c = sep
    · rw [if_pos hc]
      rcases List.mem_cons.mp h with rfl | h
      · exact Or.inl hc
      · rcases ih h with h | ⟨part, hp, hx⟩
        · exact Or.inl h
        · exact Or.inr ⟨part, List.mem_cons_of_mem _ hp, hx⟩
    · rw [if_neg hc]
      rcases hsr : splitOnChar sep rest with _ | ⟨part, parts⟩
      · exact absurd hsr (splitOnChar_ne_nil sep rest)
      · rcases List.mem_cons.mp h with rfl | h
        · exact Or.inr ⟨x :: part, List.mem_cons_self _ _, List.mem_cons_self _ _⟩
        · rcases ih h with h | ⟨part', hp', hx'⟩
          · exact Or.inl h
          · rw [hsr] at hp'
            rcases List.mem_cons.mp hp' with rfl | hp'
            · exact Or.inr ⟨c :: part', List.mem_cons_self _ _, List.mem_cons_of_mem _ hx'⟩
            · exact Or.inr ⟨part', List.mem_cons_of_mem _ hp', hx'⟩

theorem splitOnChar_append {sep : Char} {l₁ l₂ : Str} (h : sep ∉ l₁) :
    splitOnChar sep (l₁ ++ sep :: l₂) = l₁ :: splitOnChar sep l₂ := by
  induction l₁ with
  | nil => simp [splitOnChar]
  | cons a t ih =>
    have ha : ¬(a = sep) := fun hc => h (hc ▸ List.mem_cons_self a t)
    rw [List.cons_append, splitOnChar, if_neg ha,
      ih (fun hc => h (List.mem_cons_of_mem a hc))]

theorem splitOnChar_eq_single {sep : Char} {s : Str} (h : sep ∉ s) :
    splitOnChar sep s = [s] := by
  induction s with
  | nil => rfl
  | cons a t ih =>
    have ha : ¬(a = sep) := fun hc => h (hc ▸ List.mem_cons_self a t)
    rw [splitOnChar, if_neg ha, ih (fun hc => h (List.mem_cons_of_mem a hc))]

theorem splitOnChar_length_sum (sep : Char) (s : Str) :
    s.length = ((splitOnChar sep s).map List.length).sum
      + ((splitOnChar sep s).length - 1) := by
  induction s with
  | nil => rfl
  | cons a t ih =>
    rw [splitOnChar]
    by_cases hc : a = sep
    · rw [if_pos hc]
      cases hsp : splitOnChar sep t with
      | nil => exact absurd hsp (splitOnChar_ne_nil sep t)
      | cons p ps =>
        rw [hsp] at ih
        simp only [List.map_cons, List.sum_cons, List.length_cons, List.length_nil,
          List.map_nil, List.sum_nil] at ih ⊢
        omega
    · rw [if_neg hc]
      cases hsp : splitOnChar sep t with
      | nil => exact absurd hsp (splitOnChar_ne_nil sep t)
      | cons p ps =>
        rw [hsp] at ih
        simp only [List.map_cons, List.sum_cons, List.length_cons] at ih ⊢
        omega

theorem parseOctet_some {s : Str} {v : Nat} (h : parseOctet s = some v) :
    s ≠ [] ∧ ∀ x ∈ s, x.isDigit = true := by
  rw [parseOctet] at h
  by_cases h1 : s = []
  · rw [if_pos h1] at h; cases h
  rw [if_neg h1] at h
  by_cases h2 : ¬ s.all Char.isDigit
  · rw [if_pos h2] at h; cases h
  rw [if_neg h2] at h
  exact ⟨h1, fun x hx => List.all_eq_true.mp (not_not.mp h2) x hx⟩

theorem digitsVal_some {s : Str} {v : Nat} (h : digitsVal s = some v) :
    s ≠ [] ∧ ∀ x ∈ s, x.isDigit = true := by
  rw [digitsVal] at h
  by_cases h1 : s = [] ∨ ¬ s.all Char.isDigit
  · rw [if_pos h1] at h; cases h
  · push_neg at h1
    exact ⟨h1.1, fun x hx => List.all_eq_true.mp h1.2 x hx⟩

theorem goAtoi_chars {s : Str} {v : Int} (h : goAtoi s = some v) :
    ∀ x ∈ s, x.isDigit = true ∨ x = '+' ∨ x = '-' := by
  cases s with
  | nil => intro x hx; cases hx
  | cons c rest =>
    rw [goAtoi] at h
    by_cases hp : c = '+'
    · rw [if_pos hp] at h
      rcases Option.map_eq_some'.mp h with ⟨w, hw, _⟩
      intro x hx
      rcases List.mem_cons.mp hx with rfl | hx
      · exact Or.inr (Or.inl hp)
      · exact Or.inl ((digitsVal_some hw).2 x hx)
    rw [if_neg hp] at h
    by_cases hm : c = '-'
    · rw [if_pos hm] at h
      rcases Option.map_eq_some'.mp h with ⟨w, hw, _⟩
      intro x hx
      rcases List.mem_cons.mp hx with rfl | hx
      · exact Or.inr (Or.inr hm)
      · exact Or.inl ((digitsVal_some hw).2 x hx)
    · rw [if_neg hm] at h
      rcases Option.map_eq_some'.mp h with ⟨w, hw, _⟩
      exact fun x hx => Or.inl ((digitsVal_some hw).2 x hx)

theorem parseIPv4_parts {s : Str} {ip : IPv4} (h : parseIPv4 s = some ip) :
    ∃ p1 p2 p3 p4, splitOnChar '.' s = [p1, p2, p3, p4] ∧
      parseOctet p1 = some ip.a ∧ parseOctet p2 = some ip.b ∧
      parseOctet p3 = some ip.c ∧ parseOctet p4 = some ip.d := by
  unfold parseIPv4 at h
  rcases hsp : splitOnChar '.' s with _ | ⟨p1, _ | ⟨p2, _ | ⟨p3, _ | ⟨p4, _ | ⟨p5, ps⟩⟩⟩⟩⟩ <;>
    rw [hsp] at h <;> try cases h
  dsimp only at h
  cases h1 : parseOctet p1 with
  | none => rw [h1] at h; cases h
  | some a =>
    cases h2 : parseOctet p2 with
    | none => rw [h1, h2] at h; cases h
    | some b =>
      cases h3 : parseOctet p3 with
      | none => rw [h1, h2, h3] at h; cases h
      | some c =>
        cases h4 : parseOctet p4 with
        | none => rw [h1, h2, h3, h4] at h; cases h
        | some d =>
          rw [h1, h2, h3, h4] at h
          simp only [Option.some.injEq] at h
          subst h
          exact ⟨p1, p2, p3, p4, rfl, h1, h2, h3, h4⟩

theorem parseIPv4_chars {s : Str} {ip : IPv4} (h : parseIPv4 s = some ip) :
    ∀ x ∈ s, x.isDigit = true ∨ x = '.' := by
  obtain ⟨p1, p2, p3, p4, hsp, h1, h2, h3, h4⟩ := parseIPv4_parts h
  intro x hx
  rcases mem_splitOnChar_of_mem '.' hx with hd | ⟨part, hp, hxp⟩
  · exact Or.inr hd
  · rw [hsp] at hp
    left
    simp only [List.mem_cons, List.not_mem_nil, or_false] at hp
    rcases hp with rfl | rfl | rfl | rfl
    · exact (parseOctet_some h1).2 x hxp
    · exact (parseOctet_some h2).2 x hxp
    · exact (parseOctet_some h3).2 x hxp
    · exact (parseOctet_some h4).2 x hxp

theorem parseIPv4_length {s : Str} {ip : IPv4} (h : parseIPv4 s = some ip) :
    7 ≤ s.length := by
  obtain ⟨p1, p2, p3, p4, hsp, h1, h2, h3, h4⟩ := parseIPv4_parts h
  have hs := splitOnChar_length_sum '.' s
  rw [hsp] at hs
  simp only [List.map_cons, List.map_nil, List.sum_cons, List.sum_nil,
    List.length_cons, List.length_nil] at hs
  have e1 := List.length_pos.mpr (parseOctet_some h1).1
  have e2 := List.length_pos.mpr (parseOctet_some h2).1
  have e3 := List.length_pos.mpr (parseOctet_some h3).1
  have e4 := List.length_pos.mpr (parseOctet_some h4).1
  omega

theorem isGoSpace_false_of_digit {c : Char} (h : c.isDigit = true) :
    isGoSpace c = false := by
  cases hgs : isGoSpace c
  · rfl
  · exfalso
    have hmem : c = ' ' ∨ c = '\t' ∨ c = '\n' ∨ c = '\x0b' ∨ c = '\x0c' ∨ c = '\r' ∨
        c = '\x85' ∨ c = '\xa0' := by
      simpa [isGoSpace, decide_eq_true_eq] using hgs
    rcases hmem with rfl | rfl | rfl | rfl | rfl | rfl | rfl | rfl <;>
      exact absurd h (by decide)

theorem isValidPublicIP_iff {ip : IPv4} :
    isValidPublicIP ip = true ↔ amendedPublicIPv4 ip := by
  unfold isValidPublicIP amendedPublicIPv4
  split_ifs with h1 h2 <;> simp <;> omega

theorem amended_imp_not_specBad {ip : IPv4} (h : amendedPublicIPv4 ip) :
    ¬ specBadIP ip := by
  unfold amendedPublicIPv4 at h
  unfold specBadIP
  omega

theorem badPortsSingle_iff {p : Int} : badPortsSingle p = true ↔ p ∈ specDenylist := by
  unfold badPortsSingle specDenylist
  simp only [decide_eq_true_eq, List.mem_cons, List.not_mem_nil, or_false]
  constructor <;> intro h <;> omega

theorem parseSingleProxy_some_parts {line : Str} {p : proxyInfo}
    (h : parseSingleProxy line = some p) :
    ∃ hostRaw portRaw rest ip pv,
      splitOnChar ':' line = hostRaw :: portRaw :: rest ∧
      parseIPv4 (trimSpace hostRaw) = some ip ∧
      isValidPublicIP ip = true ∧
      goAtoi (takeBeforeAny [' ', '\t', '\r', '\n'] (trimSpace portRaw)) = some pv ∧
      p.port = pv ∧ 80 ≤ pv ∧ pv ≤ 65000 ∧ badPortsSingle pv = false := by
  unfold parseSingleProxy at h
  rcases hsp : splitOnChar ':' line with _ | ⟨hostRaw, _ | ⟨portRaw, rest⟩⟩ <;>
    rw [hsp] at h
  · cases h
  · cases h
  dsimp only at h
  cases hip : parseIPv4 (trimSpace hostRaw) with
  | none => rw [hip] at h; cases h
  | some ip =>
    rw [hip] at h
    dsimp only at h
    by_cases hv : ¬ isValidPublicIP ip = true
    · rw [if_pos hv] at h; cases h
    rw [if_neg hv] at h
    cases hat : goAtoi (takeBeforeAny [' ', '\t', '\r', '\n'] (trimSpace portRaw)) with
    | none => rw [hat] at h; cases h
    | some pv =>
      rw [hat] at h
      dsimp only at h
      by_cases hr1 : pv ≤ 0 ∨ 65535 < pv
      · rw [if_pos hr1] at h; cases h
      rw [if_neg hr1] at h
      by_cases hb : badPortsSingle pv = true
      · rw [if_pos hb] at h; cases h
      rw [if_neg hb] at h
      by_cases hr2 : pv < 80 ∨ 65000 < pv
      · rw [if_pos hr2] at h; cases h
      rw [if_neg hr2] at h
      have hport : p.port = pv := by
        have := (Option.some.injEq _ _).mp h
        rw [← this]
      refine ⟨hostRaw, portRaw, rest, ip, pv, rfl, hip, not_not.mp hv, hat, hport,
        by omega, by omega, by
          cases hbb : badPortsSingle pv
          · rfl
          · exact absurd hbb hb⟩

theorem parseSingleProxy_of_good {hostS portS : Str} {ip : IPv4} {pv : Int}
    (hip : parseIPv4 hostS = some ip) (hpub : amendedPublicIPv4 ip)
    (hat : goAtoi portS = some pv) (h80 : 80 ≤ pv) (h65 : pv ≤ 65000)
    (hden : pv ∉ specDenylist) :
    parseSingleProxy (hostS ++ ':' :: portS)
      = some ⟨hostS, pv, "socks5".data, getCountryFromIP hostS, 0, 0, false⟩ := by
  have hchars := parseIPv4_chars hip
  have hpchars := goAtoi_chars hat
  have hcolon_host : ':' ∉ hostS := by
    intro hm
    rcases hchars ':' hm with hd | hd <;> exact absurd hd (by decide)
  have hcolon_port : ':' ∉ portS := by
    intro hm
    rcases hpchars ':' hm with hd | hd | hd <;> exact absurd hd (by decide)
  have hsp : splitOnChar ':' (hostS ++ ':' :: portS) = hostS :: [portS] := by
    rw [splitOnChar_append hcolon_host, splitOnChar_eq_single hcolon_port]
  have htrimh : trimSpace hostS = hostS := by
    refine trimSpace_eq_self fun x hx => ?_
    rcases hchars x hx with hd | rfl
    · exact isGoSpace_false_of_digit hd
    · decide
  have htrimp : trimSpace portS = portS := by
    refine trimSpace_eq_self fun x hx => ?_
    rcases hpchars x hx with hd | rfl | rfl
    · exact isGoSpace_false_of_digit hd
    · decide
    · decide
  have htake : takeBeforeAny [' ', '\t', '\r', '\n'] portS = portS := by
    refine takeBeforeAny_eq_self fun x hx => ?_
    have hnm : x ∉ ([' ', '\t', '\r', '\n'] : List Char) := by
      intro hm
      simp only [List.mem_cons, List.not_mem_nil, or_false] at hm
      rcases hpchars x hx with hd | rfl | rfl
      · rcases hm with rfl | rfl | rfl | rfl <;> exact absurd hd (by decide)
      · rcases hm with hm | hm | hm | hm <;> exact absurd hm (by decide)
      · rcases hm with hm | hm | hm | hm <;> exact absurd hm (by decide)
    simpa using hnm
  unfold parseSingleProxy
  rw [hsp]
  dsimp only
  rw [htrimh, hip]
  dsimp only
  rw [if_neg (not_not_intro (isValidPublicIP_iff.mpr hpub))]
  rw [htrimp, htake, hat]
  dsimp only
  rw [if_neg (by omega : ¬(pv ≤ 0 ∨ 65535 < pv))]
  rw [if_neg (show ¬ badPortsSingle pv = true from
    fun hb => hden (badPortsSingle_iff.mp hb))]
  rw [if_neg (by omega : ¬(pv < 80 ∨ 65000 < pv))]

/-! ## C5: what the proxy-list parser accepts -/

/-- C5 counterexample: `225.1.1.1` lies in the multicast range 224.0.0.0/4
that the spec says is rejected, yet `parseSingleProxy` yields a candidate
for it — the code's multicast test compares the first octet with 224 only,
so 225–239 slip through. -/
theorem c5_counterexample_multicast_accepted :
    (parseSingleProxy "225.1.1.1:8080".data).map (fun p => (p.host, p.port))
        = some ("225.1.1.1".data, 8080) ∧
      ¬ specPublicIPv4 ⟨225, 1, 1, 1⟩ ∧
      224 ≤ 225 ∧ (225 : Nat) ≤ 239 := by
  exact ⟨by decide, by decide, by decide, by decide⟩

/-- C5 amended: a proxy-list line yields a candidate only if it splits on
`:` into a host parsing as an IPv4 address that is public in the amended
sense — loopback, RFC1918, link-local, reserved and final octets 0/255 are
rejected, but of the multicast range only first octet exactly 224 is — with
a port in [80, 65000] outside the denylist; an input whose lines only carry
loopback/private/reserved host IPs yields zero candidates; and an input
containing a line that is a valid `ip:port` pair with an amended-public host
and an accepted port yields at least one candidate. -/
theorem c5_amended_parser_filter :
    (∀ (line : Str) (p : proxyInfo), parseSingleProxy line = some p →
      ∃ hostRaw portRaw rest ip,
        splitOnChar ':' line = hostRaw :: portRaw :: rest ∧
        parseIPv4 (trimSpace hostRaw) = some ip ∧ amendedPublicIPv4 ip ∧
        80 ≤ p.port ∧ p.port ≤ 65000 ∧ p.port ∉ specDenylist) ∧
    (∀ body : Str,
      (∀ raw ∈ splitOnChar '\n' body, ∀ ip, lineHostIP raw = some ip → specBadIP ip) →
      parseProxyTextSimple body = []) ∧
    (∀ (body hostS portS raw : Str) (ip : IPv4) (pv : Int),
      raw ∈ splitOnChar '\n' body →
      trimSpace raw = hostS ++ ':' :: portS →
      parseIPv4 hostS = some ip → amendedPublicIPv4 ip →
      goAtoi portS = some pv → 80 ≤ pv → pv ≤ 65000 → pv ∉ specDenylist →
      parseProxyTextSimple body ≠ []) := by
  refine ⟨?_, ?_, ?_⟩
  · intro line p h
    obtain ⟨hostRaw, portRaw, rest, ip, pv, hsp, hip, hvalid, hat, hport, h80, h65, hbad⟩ :=
      parseSingleProxy_some_parts h
    refine ⟨hostRaw, portRaw, rest, ip, hsp, hip, isValidPublicIP_iff.mp hvalid,
      hport ▸ h80, hport ▸ h65, ?_⟩
    rw [hport]
    intro hmem
    rw [← badPortsSingle_iff] at hmem
    rw [hmem] at hbad
    cases hbad
  · intro body hbad
    unfold parseProxyTextSimple
    rw [List.filterMap_eq_nil]
    intro raw hraw
    dsimp only
    split
    · rfl
    · cases hps : parseSingleProxy (trimSpace raw) with
      | none => rfl
      | some p =>
        exfalso
        obtain ⟨hostRaw, portRaw, rest, ip, pv, hsp, hip, hvalid, -, -, -, -, -⟩ :=
          parseSingleProxy_some_parts hps
        have hline : lineHostIP raw = some ip := by
          unfold lineHostIP
          rw [hsp]
          exact hip
        exact amended_imp_not_specBad (isValidPublicIP_iff.mp hvalid)
          (hbad raw hraw ip hline)
  · intro body hostS portS raw ip pv hraw htrim hip hpub hat h80 h65 hden
    have hlen7 : 7 ≤ hostS.length := parseIPv4_length hip
    have hhost_ne : hostS ≠ [] := by
      intro hnil
      rw [hnil] at hlen7
      simp at hlen7
    obtain ⟨h0, t0, rfl⟩ : ∃ h0 t0, hostS = h0 :: t0 := by
      cases hostS with
      | nil => exact absurd rfl hhost_ne
      | cons a b => exact ⟨a, b, rfl⟩
    have hh0 : h0.isDigit = true ∨ h0 = '.' :=
      parseIPv4_chars hip h0 (List.mem_cons_self _ _)
    have hguard : ¬(trimSpace raw = [] ∨
        strStartsWith (trimSpace raw) "#".data = true ∨ (trimSpace raw).length < 7) := by
      rw [htrim]
      push_neg
      refine ⟨by simp, ?_, ?_⟩
      · show strStartsWith (h0 :: (t0 ++ ':' :: portS)) ['#'] ≠ true
        simp only [strStartsWith, List.isPrefixOf]
        intro hcon
        simp only [Bool.and_true, beq_iff_eq] at hcon
        rcases hh0 with hd | rfl
        · rw [← hcon] at hd
          exact absurd hd (by decide)
        · exact absurd hcon (by decide)
      · simp only [List.length_cons, List.length_append, not_lt]
        simp only [List.length_cons] at hlen7
        omega
    have hf : (fun raw : Str =>
        let line := trimSpace raw
        if line = [] ∨ strStartsWith line "#".data ∨ line.length < 7 then none
        else parseSingleProxy line) raw
        = some ⟨h0 :: t0, pv, "socks5".data, getCountryFromIP (h0 :: t0), 0, 0, false⟩ := by
      dsimp only
      rw [htrim] at hguard ⊢
      rw [if_neg hguard]
      exact parseSingleProxy_of_good hip hpub hat h80 h65 hden
    exact List.ne_nil_of_mem (List.mem_filterMap.mpr ⟨raw, hraw, hf⟩)

/-- C5 witness: a single-line input carrying a valid public pair yields a
candidate, applied at `1.2.3.4:8080`. -/
theorem c5_amended_witness :
    parseProxyTextSimple "1.2.3.4:8080".data ≠ [] :=
  c5_amended_parser_filter.2.2 "1.2.3.4:8080".data "1.2.3.4".data "8080".data
    "1.2.3.4:8080".data ⟨1, 2, 3, 4⟩ 8080 (by decide) (by decide) (by decide)
    (by decide) (by decide) (by decide) (by decide) (by decide)

end HotDeal
